import Mathlib

/-!
Verification of the procedural terrain-synthesis core of `mapmosaic`:
the domain-warped fBm heightmap generator (`src/noise/heightmap_generator.py`)
and the elevation-band terrain classifier (`src/noise/terrain_generator.py`).

The Python code is shallowly embedded over exact rationals (`ℚ` in place of
IEEE floats), with Python exceptions modelled by `Except String`.  The
OpenSimplex noise primitive is a third-party library, not part of this
repository; per the spec it is a deterministic pure function of
`(seed, x, y)`, so it is embedded as an abstract function parameter
`os : ℤ → ℚ → ℚ → ℚ` (seed ↦ noise2).
-/

namespace MapMosaic

/-! ## Noise field generator (`heightmap_generator.py`) -/

/-- Embedding of the constructor arguments of `HeightmapGenerator.__init__`
(`seed, base_freq, octaves, lacunarity, gain, warp_amp, warp_freq`).
`octaves` is an `ℤ` because a Python `int` may be non-positive. -/
structure NoiseConfig where
  seed : ℤ
  base_freq : ℚ
  octaves : ℤ
  lacunarity : ℚ
  gain : ℚ
  warp_amp : ℚ
  warp_freq : ℚ

/-- One constructed `HeightmapGenerator` instance: the fields stored by
`__init__`, with `self.noise = OpenSimplex(seed)` embedded as the
already-applied noise function `noise2 = os seed`. -/
structure HeightmapGenerator where
  noise2 : ℚ → ℚ → ℚ
  base_freq : ℚ
  octaves : ℤ
  lacunarity : ℚ
  gain : ℚ
  warp_amp : ℚ
  warp_freq : ℚ

/-- Embedding of `HeightmapGenerator.__init__` (lines 7–33).  The body only
stores its arguments and builds `OpenSimplex(seed)`; it contains no
validation and raises nothing, so the result is always `Except.ok`. -/
def hmInit (os : ℤ → ℚ → ℚ → ℚ) (cfg : NoiseConfig) :
    Except String HeightmapGenerator :=
  .ok { noise2 := os cfg.seed
        base_freq := cfg.base_freq
        octaves := cfg.octaves
        lacunarity := cfg.lacunarity
        gain := cfg.gain
        warp_amp := cfg.warp_amp
        warp_freq := cfg.warp_freq }

/-- The `for _ in range(self.octaves)` loop body of `_fbm2d` (lines 40–44),
with the four loop accumulators `total, amplitude, frequency, max_amp`
passed explicitly.  Returns the final `(total, max_amp)`. -/
def fbmIter (noise : ℚ → ℚ → ℚ) (gain lac x y : ℚ) :
    ℕ → ℚ → ℚ → ℚ → ℚ → ℚ × ℚ
  | 0, total, _amp, _freq, maxAmp => (total, maxAmp)
  | n + 1, total, amp, freq, maxAmp =>
      fbmIter noise gain lac x y n
        (total + noise (x * freq) (y * freq) * amp)
        (amp * gain) (freq * lac) (maxAmp + amp)

/-- Embedding of `HeightmapGenerator._fbm2d` (lines 35–45).  `range(n)` for a
non-positive Python `int` `n` is empty, hence `octaves.toNat` iterations.
The final `total / max_amp` raises `ZeroDivisionError` in Python when
`max_amp == 0.0` (e.g. zero octaves), modelled as `Except.error`. -/
def fbm2d (g : HeightmapGenerator) (x y : ℚ) : Except String ℚ :=
  let r := fbmIter g.noise2 g.gain g.lacunarity x y g.octaves.toNat 0 1 1 0
  if r.2 = 0 then .error "float division by zero" else .ok (r.1 / r.2)

/-- Embedding of `HeightmapGenerator._domain_warp` (lines 47–51). -/
def domainWarp (g : HeightmapGenerator) (x y : ℚ) : ℚ × ℚ :=
  let dx := g.noise2 (x * g.warp_freq) (y * g.warp_freq)
  let dy := g.noise2 ((x + 1000) * g.warp_freq) ((y + 1000) * g.warp_freq)
  (x + dx * g.warp_amp, y + dy * g.warp_amp)

/-- The body of the per-pixel loop of `generate` (lines 60–63): world
coordinates, domain warp, then fBm. -/
def rawPixel (g : HeightmapGenerator) (ix iy : ℕ) : Except String ℚ :=
  let wx := (ix : ℚ) * g.base_freq
  let wy := (iy : ℚ) * g.base_freq
  let u := domainWarp g wx wy
  fbm2d g u.1 u.2

/-- Error-propagating map over a list: a Python `for` loop in which an
exception raised by the body aborts the whole computation. -/
def mapExcept (f : α → Except String β) : List α → Except String (List β)
  | [] => .ok []
  | a :: l =>
    match f a with
    | .error e => .error e
    | .ok b =>
      match mapExcept f l with
      | .error e => .error e
      | .ok bs => .ok (b :: bs)

/-- Byte quantization `(value * 255).astype('uint8')` (line 68) for one
sample.  `astype('uint8')` truncates toward zero; it is only applied to
normalized samples in `[0, 1]`, where truncation coincides with `⌊·⌋`. -/
def quantByte (q : ℚ) : ℕ :=
  (⌊q * 255⌋).toNat

/-- Embedding of `HeightmapGenerator.generate` (lines 53–68).  The raw field
is computed row by row, then globally normalized by
`(arr - arr.min()) / (arr.max() - arr.min())` and byte-quantized.
Modelling notes on the two error branches:
* `width*height == 0`: `arr.min()` on an empty numpy array raises
  `ValueError`, modelled as the first `Except.error`;
* `arr.max() == arr.min()`: the flat field makes the normalization compute
  `0.0/0.0 = NaN` (IEEE), and numpy leaves the subsequent `NaN → uint8`
  cast unspecified.  That branch has no exact-arithmetic meaning, so it is
  modelled by an error sentinel rather than by any byte value. -/
def generate (g : HeightmapGenerator) (width height : ℕ) :
    Except String (List (List ℕ)) :=
  match mapExcept (fun iy => mapExcept (fun ix => rawPixel g ix iy)
      (List.range width)) (List.range height) with
  | .error e => .error e
  | .ok rows =>
    match rows.flatten with
    | [] => .error "zero-size array reduction has no identity"
    | v :: vs =>
      let mn := vs.foldl min v
      let mx := vs.foldl max v
      if mx = mn then
        .error "flat field: 0.0/0.0 is NaN and its uint8 cast is unspecified"
      else
        .ok (rows.map (fun row => row.map (fun q =>
          quantByte ((q - mn) / (mx - mn)))))

/-- The spec's external interface `generate_heightmap(config, width, height)`:
construct a generator from the config and run `generate`. -/
def generateHeightmap (os : ℤ → ℚ → ℚ → ℚ) (cfg : NoiseConfig)
    (width height : ℕ) : Except String (List (List ℕ)) :=
  match hmInit os cfg with
  | .error e => .error e
  | .ok g => generate g width height

/-- The total amplitude normalizer of `_fbm2d`: `max_amp = Σ_{k<octaves} gain^k`. -/
def sumGain (g : HeightmapGenerator) : ℚ :=
  ∑ k ∈ Finset.range g.octaves.toNat, g.gain ^ k

/-! ## Terrain classifier (`terrain_generator.py`) -/

/-- RGB triple. -/
abbrev RGB := ℕ × ℕ × ℕ

/-- One classification band `(min_elev, max_elev, (R,G,B))`. -/
abbrev TerrainRegion := ℚ × ℚ × RGB

/-- The default region table of `TerrainGenerator.__init__` (lines 16–24). -/
def defaultRegions : List TerrainRegion :=
  [ (0, 3/10, (0, 0, 128)),
    (3/10, 2/5, (64, 160, 224)),
    (2/5, 9/20, (238, 214, 175)),
    (9/20, 3/5, (120, 200, 80)),
    (3/5, 3/4, (16, 128, 16)),
    (3/4, 9/10, (128, 128, 128)),
    (9/10, 1, (255, 255, 255)) ]

/-- The sort key comparison of `sorted(regions, key=lambda r: r[0])`. -/
def byMinElev (a b : TerrainRegion) : Prop := a.1 ≤ b.1

instance : DecidableRel byMinElev :=
  fun a b => inferInstanceAs (Decidable (a.1 ≤ b.1))

/-- A constructed `TerrainGenerator`: its `self.regions` list. -/
structure TerrainGenerator where
  regions : List TerrainRegion

/-- Embedding of `TerrainGenerator.__init__` (lines 10–26): substitute the
default palette when `regions is None`, then sort ascending by
`min_elev`.  Python's `sorted` is a stable ascending sort, embedded as
insertion sort (stable for the total preorder `byMinElev`). -/
def mkTerrainGenerator (regions : Option (List TerrainRegion)) :
    TerrainGenerator :=
  ⟨(regions.getD defaultRegions).insertionSort byMinElev⟩

/-- Input to `TerrainGenerator.apply`: either a PIL image (its float samples
after `heightmap.convert('F')`; for a mode-`'L'` image these are the byte
values `0..255`) or a 2-D float array, mirroring the `isinstance` branch. -/
inductive HeightmapInput where
  | image (samples : List (List ℚ))
  | array (samples : List (List ℚ))

/-- `np.clip(arr, 0.0, 1.0)` on one sample (line 41). -/
def clip01 (v : ℚ) : ℚ := min (max v 0) 1

/-- `arr.max()` over the whole grid; Python raises on an empty array, a case
never reached in the theorems below (the `[]` branch is junk). -/
def gridMax (hm : List (List ℚ)) : ℚ :=
  match hm.flatten with
  | [] => 0
  | v :: vs => vs.foldl max v

/-- The region loop of `apply` (lines 46–49) at one sample: `rgb` starts as
zeros and each region with `min_e ≤ v < max_e` overwrites the pixel with
its color. -/
def classifyPixel (rs : List TerrainRegion) (v : ℚ) : RGB :=
  rs.foldl (fun acc r => if r.1 ≤ v ∧ v < r.2.1 then r.2.2 else acc) (0, 0, 0)

/-- Embedding of `TerrainGenerator.apply` (lines 28–51).
* PIL branch: `convert('F')`, then `arr /= 255.0` when `arr.max() > 1.0`
  (no clipping), then the region loop;
* array branch: `np.clip(arr, 0.0, 1.0)`, then the region loop.
For well-formed rectangular input the Python body raises nothing, so the
embedding is total. -/
def apply (tg : TerrainGenerator) : HeightmapInput → List (List RGB)
  | .image hm =>
    let arr := if 1 < gridMax hm then hm.map (fun row => row.map (· / 255))
               else hm
    arr.map (fun row => row.map (classifyPixel tg.regions))
  | .array hm =>
    hm.map (fun row => row.map (fun v => classifyPixel tg.regions (clip01 v)))

/-- The classifier built with the default palette (`TerrainGenerator()`). -/
def defaultTG : TerrainGenerator := mkTerrainGenerator none

/-- Reference function for the claims' overlap rule: the color of the LAST
region in list order whose half-open interval contains `v`, black when
none does.  (Comparison target for `classifyPixel`.) -/
def lastMatchColor (rs : List TerrainRegion) (v : ℚ) : RGB :=
  (((rs.filter (fun r => decide (r.1 ≤ v) && decide (v < r.2.1))).getLast?).map
    (fun r => r.2.2)).getD (0, 0, 0)

/-- Modelled from the spec: the byte quantization the spec prescribes in
§4.1 ("round-to-nearest, clamp to [0,255]"), to be compared with the
code's `quantByte`. -/
def specRoundByte (q : ℚ) : ℤ :=
  min 255 (max 0 (round (q * 255)))

/-! ## Concrete instances used in closed evaluation theorems -/

/-- A concrete noise-primitive family (constant zero) for closed instances. -/
def zeroNoiseFamily : ℤ → ℚ → ℚ → ℚ := fun _ _ _ => 0

/-- The default constructor arguments of `HeightmapGenerator.__init__`, with
`octaves` set to the invalid value `0`. -/
def invalidCfg : NoiseConfig :=
  { seed := 42, base_freq := 1/200, octaves := 0, lacunarity := 11/5,
    gain := 1/2, warp_amp := 1/10, warp_freq := 1/50 }

/-- A concrete generator whose noise primitive returns its first coordinate,
with `base_freq = 1`, one octave and no warp: its raw field at `(ix, iy)`
is exactly `ix`. -/
def truncGen : HeightmapGenerator :=
  { noise2 := fun x _ => x, base_freq := 1, octaves := 1, lacunarity := 2,
    gain := 1/2, warp_amp := 0, warp_freq := 1 }

/-- A concrete generator with two octaves used to instantiate the fBm
closed-form theorem. -/
def fbmGen : HeightmapGenerator :=
  { noise2 := fun x y => x + y, base_freq := 1, octaves := 2, lacunarity := 2,
    gain := 1/2, warp_amp := 1, warp_freq := 1 }

/-! ## Theorems -/

/-- The default region table is already ascending, so the constructor's sort
leaves it unchanged. -/
theorem defaultTG_regions : defaultTG.regions = defaultRegions := by
  norm_num [defaultTG, mkTerrainGenerator, defaultRegions,
    List.insertionSort, List.orderedInsert, byMinElev]

/-- Claim C1 (code_bug evaluation): a post-clamp sample `v = 1.0` (here from
the raw input `1.5`, as in the repository's own test
`test_apply_with_numpy_array_clips_values`) is contained in no region's
half-open interval, and the code leaves the pixel at its zero
initialization `(0,0,0)` instead of assigning the color of the region
with the largest `max_elevation` (snow, `(255,255,255)`). -/
theorem c1_gap_sample_left_black :
    apply defaultTG (.array [[3/2]]) = [[(0, 0, 0)]] ∧
    ((0, 0, 0) : RGB) ≠ (255, 255, 255) := by
  constructor
  · norm_num [apply, defaultTG_regions, defaultRegions, classifyPixel,
      clip01, List.foldl]
  · decide

/-- Claim C2: `generate_heightmap` is a pure function of the noise-primitive
family (itself a deterministic function of the seed), the configuration
and the dimensions; two calls with identical arguments are identical.
The embedding has no other input: the Python code's only state is
`OpenSimplex(seed)`, fixed at construction. -/
theorem generateHeightmap_deterministic (os : ℤ → ℚ → ℚ → ℚ)
    (cfg : NoiseConfig) (w h : ℕ) :
    generateHeightmap os cfg w h = generateHeightmap os cfg w h := rfl

/-- Classifying with an empty region list is total in the embedding because
the Python body raises nothing: the zero-initialized `rgb` buffer is
returned untouched, i.e. every pixel is black. -/
theorem c7_counterexample_empty_palette_silent_black :
    apply (mkTerrainGenerator (some [])) (.array [[1/2]]) = [[(0, 0, 0)]] := by
  norm_num [apply, mkTerrainGenerator, List.insertionSort, classifyPixel,
    clip01, List.foldl]

/-- Claim C7 (amended): classifying any heightmap against zero regions does
not fail; `apply` silently returns the all-black image of the input's
dimensions. -/
theorem c7_empty_palette_all_black (hm : List (List ℚ)) :
    apply (mkTerrainGenerator (some [])) (.array hm)
      = hm.map (fun row => row.map (fun _ => ((0, 0, 0) : RGB))) := by
  simp [apply, mkTerrainGenerator, List.insertionSort, classifyPixel]

/-- The region loop writes every matching region's color over the pixel, so
the final pixel is the color of the LAST match in list order (black when
there is none) — regardless of the initial accumulator. -/
theorem classifyPixel_foldl_lastMatch (v : ℚ) (acc : RGB)
    (rs : List TerrainRegion) :
    rs.foldl (fun a r => if r.1 ≤ v ∧ v < r.2.1 then r.2.2 else a) acc
      = ((((rs.filter (fun r => decide (r.1 ≤ v) && decide (v < r.2.1))).getLast?).map
          (fun r => r.2.2)).getD acc) := by
  induction rs using List.reverseRecOn with
  | nil => simp
  | append_singleton l r ih =>
    rw [List.foldl_append, List.foldl_cons, List.foldl_nil, List.filter_append]
    by_cases h : r.1 ≤ v ∧ v < r.2.1
    · have hr : List.filter (fun r => decide (r.1 ≤ v) && decide (v < r.2.1)) [r]
          = [r] := by simp [List.filter, h.1, h.2]
      rw [if_pos h, hr, List.getLast?_append_cons]
      simp
    · have hb : (decide (r.1 ≤ v) && decide (v < r.2.1)) = false := by
        rcases Decidable.not_and_iff_or_not.mp h with h1 | h1 <;> simp [h1]
      have hr : List.filter (fun r => decide (r.1 ≤ v) && decide (v < r.2.1)) [r]
          = [] := by simp [List.filter, hb]
      rw [if_neg h, hr, List.append_nil, ih]


/-- Overlap counterexample to the "first match wins" rule: the sample `1/2`
lies in both `[0,1)` (color `(1,1,1)`, the lowest `min_elevation`) and
`[1/5,4/5)` (color `(2,2,2)`); the code's region loop writes the later
region's color last, so the pixel is `(2,2,2)`, not `(1,1,1)`. -/
theorem c4_counterexample_overlap_last_wins :
    apply (mkTerrainGenerator (some [(0, 1, (1, 1, 1)), (1/5, 4/5, (2, 2, 2))]))
        (.array [[1/2]])
      = [[(2, 2, 2)]] ∧ ((2, 2, 2) : RGB) ≠ (1, 1, 1) := by
  constructor
  · norm_num [apply, mkTerrainGenerator, List.insertionSort, List.orderedInsert,
      byMinElev, classifyPixel, clip01, List.foldl]
  · decide

/-- Claim C4 (amended): for every palette and post-clamp sample, `apply`
assigns the color of the LAST region in the classifier's ascending
`min_elevation` order whose half-open interval contains the value (for
overlapping regions the highest containing `min_elevation` wins), and the
zero-initialized black where no region contains it. -/
theorem c4_last_containing_region_wins (rs : Option (List TerrainRegion))
    (hm : List (List ℚ)) :
    apply (mkTerrainGenerator rs) (.array hm)
      = hm.map (fun row => row.map (fun v =>
          lastMatchColor (mkTerrainGenerator rs).regions (clip01 v))) := by
  unfold apply lastMatchColor classifyPixel
  refine List.map_congr_left (fun row _ => List.map_congr_left (fun v _ => ?_))
  rw [classifyPixel_foldl_lastMatch]

/-- PIL-branch counterexample to the clamping rule: a mode-`'F'` image whose
single sample is `2.0` has `arr.max() > 1.0`, so the code divides by 255
(yielding `2/255`, a deep-water pixel `(0,0,128)`) instead of clamping
`2.0` to `1.0`; in particular the result is not the catch-all (snow)
color the claim prescribes for values at or above 1. -/
theorem c9_counterexample_image_not_clamped :
    apply defaultTG (.image [[2]]) = [[(0, 0, 128)]] ∧
    clip01 2 = 1 ∧ ((2 : ℚ) / 255) ≠ clip01 2 ∧
    ((0, 0, 128) : RGB) ≠ (255, 255, 255) := by
  refine ⟨?_, by norm_num [clip01], by norm_num [clip01], by decide⟩
  norm_num [apply, gridMax, defaultTG_regions, defaultRegions, classifyPixel,
    List.foldl]

/-- Claim C9 (amended): the clamp into `[0,1]` is applied on the float-array
branch only, and never errors; a sample clamped to `0` gets the default
palette's lowest band color `(0,0,128)`; a sample clamped to `1.0`
matches no half-open band and keeps the black zero-initialization; a PIL
image is never clamped — its samples are divided by 255 exactly when the
image maximum exceeds `1.0` and are band-tested unchanged otherwise. -/
theorem c9_clamp_only_on_array_branch (v : ℚ) (tg : TerrainGenerator)
    (hm : List (List ℚ)) :
    (0 ≤ clip01 v ∧ clip01 v ≤ 1) ∧
    (0 ≤ v → v ≤ 1 → clip01 v = v) ∧
    (v ≤ 0 → classifyPixel defaultRegions (clip01 v) = (0, 0, 128)) ∧
    (1 ≤ v → classifyPixel defaultRegions (clip01 v) = (0, 0, 0)) ∧
    (1 < gridMax hm → apply tg (.image hm)
      = hm.map (fun row => row.map (fun q => classifyPixel tg.regions (q / 255)))) ∧
    (¬ 1 < gridMax hm → apply tg (.image hm)
      = hm.map (fun row => row.map (fun q => classifyPixel tg.regions q))) := by
  refine ⟨⟨le_min (le_max_right v 0) zero_le_one, min_le_right _ _⟩,
    ?_, ?_, ?_, ?_, ?_⟩
  · intro h0 h1
    rw [clip01, max_eq_left h0, min_eq_left h1]
  · intro hv
    have hc : clip01 v = 0 := by rw [clip01, max_eq_right hv]; norm_num
    rw [hc]
    norm_num [classifyPixel, defaultRegions, List.foldl]
  · intro hv
    have hc : clip01 v = 1 := by
      rw [clip01, max_eq_left (le_trans zero_le_one hv), min_eq_right hv]
    rw [hc]
    norm_num [classifyPixel, defaultRegions, List.foldl]
  · intro hmax
    rw [apply, if_pos hmax]
    simp [List.map_map, Function.comp]
  · intro hmax
    rw [apply, if_neg hmax]

/-- Closed instance of the amended C9 theorem, discharging each of its
hypotheses at concrete inputs. -/
theorem c9_clamp_only_on_array_branch_witness :
    clip01 (1/2) = 1/2 ∧
    classifyPixel defaultRegions (clip01 (-1)) = (0, 0, 128) ∧
    classifyPixel defaultRegions (clip01 (3/2)) = (0, 0, 0) ∧
    apply defaultTG (.image [[2]])
      = [[(2 : ℚ)]].map (fun row => row.map (fun q =>
          classifyPixel defaultTG.regions (q / 255))) ∧
    apply defaultTG (.image [[1/2]])
      = [[(1 : ℚ)/2]].map (fun row => row.map (fun q =>
          classifyPixel defaultTG.regions q)) :=
  ⟨(c9_clamp_only_on_array_branch (1/2) defaultTG [[2]]).2.1 (by norm_num)
      (by norm_num),
   (c9_clamp_only_on_array_branch (-1) defaultTG [[2]]).2.2.1 (by norm_num),
   (c9_clamp_only_on_array_branch (3/2) defaultTG [[2]]).2.2.2.1 (by norm_num),
   (c9_clamp_only_on_array_branch 0 defaultTG [[2]]).2.2.2.2.1
      (by norm_num [gridMax]),
   (c9_clamp_only_on_array_branch 0 defaultTG [[1/2]]).2.2.2.2.2
      (by norm_num [gridMax])⟩

/-- Any two default regions containing the same value are the same region:
the default bands are mutually disjoint. -/
theorem defaultRegions_unique_match (v : ℚ) (r1 r2 : TerrainRegion)
    (h1 : r1 ∈ defaultRegions ∧ r1.1 ≤ v ∧ v < r1.2.1)
    (h2 : r2 ∈ defaultRegions ∧ r2.1 ≤ v ∧ v < r2.2.1) : r1 = r2 := by
  obtain ⟨hm1, ha1, hb1⟩ := h1
  obtain ⟨hm2, ha2, hb2⟩ := h2
  simp only [defaultRegions, List.mem_cons, List.not_mem_nil, or_false] at hm1 hm2
  rcases hm1 with rfl | rfl | rfl | rfl | rfl | rfl | rfl <;>
    rcases hm2 with rfl | rfl | rfl | rfl | rfl | rfl | rfl <;>
    first
    | rfl
    | (exfalso; norm_num at ha1 hb1 ha2 hb2; linarith)

/-- Claim C10: the default palette has exactly the seven documented bands
with boundaries `0, 0.3, 0.4, 0.45, 0.6, 0.75, 0.9, 1`, is kept sorted
ascending by `min_elevation` (the constructor's sort leaves it unchanged),
its bands are mutually non-overlapping (each `max_elevation` is at most
every later `min_elevation`), and every value in `[0,1)` is contained in
exactly one band. -/
theorem c10_default_palette_partition (v : ℚ) (h0 : 0 ≤ v) (h1 : v < 1) :
    (mkTerrainGenerator none).regions = defaultRegions ∧
    defaultRegions.length = 7 ∧
    defaultRegions.map (fun r => (r.1, r.2.1))
      = [(0, 3/10), (3/10, 2/5), (2/5, 9/20), (9/20, 3/5), (3/5, 3/4),
         (3/4, 9/10), (9/10, 1)] ∧
    defaultRegions.Pairwise (fun a b => a.1 ≤ b.1 ∧ a.2.1 ≤ b.1) ∧
    ∃! r : TerrainRegion, r ∈ defaultRegions ∧ r.1 ≤ v ∧ v < r.2.1 := by
  refine ⟨defaultTG_regions, by norm_num [defaultRegions],
    by norm_num [defaultRegions], ?_, ?_⟩
  · norm_num [defaultRegions, List.pairwise_cons]
  · have exist : ∃ r : TerrainRegion,
        r ∈ defaultRegions ∧ r.1 ≤ v ∧ v < r.2.1 := by
      rcases lt_or_le v (3/10) with h | hA
      · exact ⟨(0, 3/10, (0, 0, 128)), by norm_num [defaultRegions], h0, h⟩
      rcases lt_or_le v (2/5) with h | hB
      · exact ⟨(3/10, 2/5, (64, 160, 224)), by norm_num [defaultRegions], hA, h⟩
      rcases lt_or_le v (9/20) with h | hC
      · exact ⟨(2/5, 9/20, (238, 214, 175)), by norm_num [defaultRegions], hB, h⟩
      rcases lt_or_le v (3/5) with h | hD
      · exact ⟨(9/20, 3/5, (120, 200, 80)), by norm_num [defaultRegions], hC, h⟩
      rcases lt_or_le v (3/4) with h | hE
      · exact ⟨(3/5, 3/4, (16, 128, 16)), by norm_num [defaultRegions], hD, h⟩
      rcases lt_or_le v (9/10) with h | hF
      · exact ⟨(3/4, 9/10, (128, 128, 128)), by norm_num [defaultRegions], hE, h⟩
      · exact ⟨(9/10, 1, (255, 255, 255)), by norm_num [defaultRegions], hF, h1⟩
    obtain ⟨r, hr⟩ := exist
    exact ⟨r, hr, fun y hy => defaultRegions_unique_match v y r hy hr⟩

/-- Closed instance of the C10 theorem at `v = 1/2`. -/
theorem c10_default_palette_partition_witness :
    (0 : ℚ) ≤ 1/2 ∧ (1/2 : ℚ) < 1 ∧
    ((mkTerrainGenerator none).regions = defaultRegions ∧
     defaultRegions.length = 7 ∧
     defaultRegions.map (fun r => (r.1, r.2.1))
       = [(0, 3/10), (3/10, 2/5), (2/5, 9/20), (9/20, 3/5), (3/5, 3/4),
          (3/4, 9/10), (9/10, 1)] ∧
     defaultRegions.Pairwise (fun a b => a.1 ≤ b.1 ∧ a.2.1 ≤ b.1) ∧
     ∃! r : TerrainRegion, r ∈ defaultRegions ∧ r.1 ≤ (1/2 : ℚ) ∧ (1/2 : ℚ) < r.2.1) :=
  ⟨by norm_num, by norm_num,
   c10_default_palette_partition (1/2) (by norm_num) (by norm_num)⟩

/-- Closed form of the `_fbm2d` loop: starting from accumulators
`(total, amplitude, frequency, max_amp) = (t, a, f, m)`, after `n`
iterations `total` holds `t + Σ_{k<n} noise(x·f·lac^k, y·f·lac^k)·a·gain^k`
and `max_amp` holds `m + Σ_{k<n} a·gain^k`. -/
theorem fbmIter_spec (noise : ℚ → ℚ → ℚ) (gain lac x y : ℚ) :
    ∀ (n : ℕ) (t a f m : ℚ),
      fbmIter noise gain lac x y n t a f m
        = (t + ∑ k ∈ Finset.range n,
             noise (x * (f * lac ^ k)) (y * (f * lac ^ k)) * (a * gain ^ k),
           m + ∑ k ∈ Finset.range n, a * gain ^ k) := by
  intro n
  induction n with
  | zero => intro t a f m; simp [fbmIter]
  | succ n ih =>
    intro t a f m
    rw [fbmIter, ih]
    have hc1 : ∀ k ∈ Finset.range n,
        noise (x * (f * lac ^ (k + 1))) (y * (f * lac ^ (k + 1)))
            * (a * gain ^ (k + 1))
          = noise (x * (f * lac * lac ^ k)) (y * (f * lac * lac ^ k))
            * (a * gain * gain ^ k) := by
      intro k _
      have e1 : x * (f * lac ^ (k + 1)) = x * (f * lac * lac ^ k) := by ring
      have e2 : y * (f * lac ^ (k + 1)) = y * (f * lac * lac ^ k) := by ring
      have e3 : a * gain ^ (k + 1) = a * gain * gain ^ k := by ring
      rw [e1, e2, e3]
    have hc2 : ∀ k ∈ Finset.range n,
        a * gain ^ (k + 1) = a * gain * gain ^ k := by
      intro k _
      ring
    refine Prod.ext ?_ ?_ <;>
      simp only [Finset.sum_range_succ', Finset.sum_congr rfl hc1,
        Finset.sum_congr rfl hc2, pow_zero, mul_one] <;> ring

/-- The `_fbm2d` loop from its initial accumulators
`(total, amplitude, frequency, max_amp) = (0, 1, 1, 0)`. -/
theorem fbmIter_start (noise : ℚ → ℚ → ℚ) (gain lac x y : ℚ) (n : ℕ) :
    fbmIter noise gain lac x y n 0 1 1 0
      = (∑ k ∈ Finset.range n, noise (x * lac ^ k) (y * lac ^ k) * gain ^ k,
         ∑ k ∈ Finset.range n, gain ^ k) := by
  rw [fbmIter_spec]
  simp [one_mul, mul_one, zero_add]

/-- Claim C3: for every pixel `(ix, iy)` the raw (pre-normalization) field
value is fBm at the warped coordinates
`(ux, uy) = (wx + dx·warp_amp, wy + dy·warp_amp)`, namely
`(Σ_{k<octaves} noise(ux·lacunarity^k, uy·lacunarity^k)·gain^k) / (Σ_{k<octaves} gain^k)`,
provided the amplitude normalizer is nonzero (otherwise Python raises
`ZeroDivisionError`). -/
theorem c3_raw_field_is_warped_fbm (g : HeightmapGenerator) (ix iy : ℕ)
    (h : sumGain g ≠ 0) :
    rawPixel g ix iy
      = .ok ((∑ k ∈ Finset.range g.octaves.toNat,
          g.noise2
            (((ix : ℚ) * g.base_freq
               + g.noise2 ((ix : ℚ) * g.base_freq * g.warp_freq)
                   ((iy : ℚ) * g.base_freq * g.warp_freq) * g.warp_amp)
              * g.lacunarity ^ k)
            (((iy : ℚ) * g.base_freq
               + g.noise2 (((ix : ℚ) * g.base_freq + 1000) * g.warp_freq)
                   (((iy : ℚ) * g.base_freq + 1000) * g.warp_freq) * g.warp_amp)
              * g.lacunarity ^ k)
          * g.gain ^ k) / sumGain g) := by
  have h' : ¬((∑ k ∈ Finset.range g.octaves.toNat, g.gain ^ k) = 0) := h
  simp only [rawPixel, domainWarp, fbm2d, fbmIter_start]
  rw [if_neg h']
  rfl

/-- Closed instance of the C3 theorem on `fbmGen` at pixel `(1, 1)`:
`wx = wy = 1`, `dx = noise(1,1) = 2`, `dy = noise(1001,1001) = 2002`,
`(ux, uy) = (3, 2003)`, fBm `= (2006 + 2006·(1/2)) / (1 + 1/2) = 8024/3`. -/
theorem c3_raw_field_is_warped_fbm_witness :
    sumGain fbmGen ≠ 0 ∧ rawPixel fbmGen 1 1 = .ok (8024/3) := by
  have ht : Int.toNat 2 = 2 := rfl
  have h : sumGain fbmGen ≠ 0 := by
    norm_num [sumGain, fbmGen, ht, Finset.sum_range_succ]
  refine ⟨h, ?_⟩
  rw [c3_raw_field_is_warped_fbm fbmGen 1 1 h]
  norm_num [fbmGen, sumGain, ht, Finset.sum_range_succ]

/-- A loop whose body raises on every element raises as soon as the list is
nonempty. -/
theorem mapExcept_error {α β : Type} {f : α → Except String β} {e : String}
    (l : List α) (hne : l ≠ [])
    (hall : ∀ a ∈ l, f a = .error e) : mapExcept f l = .error e := by
  cases l with
  | nil => exact absurd rfl hne
  | cons a t => simp [mapExcept, hall a (List.mem_cons_self a t)]

/-- With non-positive `octaves` the fBm loop never runs, `max_amp` stays `0`,
and the very first pixel of `generate` raises `ZeroDivisionError`. -/
theorem generate_error_of_octaves_nonpos (g : HeightmapGenerator) (w h : ℕ)
    (hoct : g.octaves ≤ 0) (hw : 0 < w) (hh : 0 < h) :
    generate g w h = .error "float division by zero" := by
  have htn : g.octaves.toNat = 0 := Int.toNat_of_nonpos hoct
  have hpix : ∀ ix iy : ℕ, rawPixel g ix iy = .error "float division by zero" := by
    intro ix iy
    simp [rawPixel, fbm2d, fbmIter, htn]
  have hrow : ∀ iy ∈ List.range h,
      mapExcept (fun ix => rawPixel g ix iy) (List.range w)
        = .error "float division by zero" := by
    intro iy _
    exact mapExcept_error _
      (by simpa [List.range_eq_nil] using Nat.pos_iff_ne_zero.mp hw)
      (fun a _ => hpix a iy)
  have houter : mapExcept (fun iy => mapExcept (fun ix => rawPixel g ix iy)
      (List.range w)) (List.range h) = .error "float division by zero" :=
    mapExcept_error _
      (by simpa [List.range_eq_nil] using Nat.pos_iff_ne_zero.mp hh) hrow
  simp [generate, houter]

/-- Counterexample to eager validation: with the invalid `octaves = 0` the
constructor still succeeds (it validates nothing), and the failure only
happens later, inside the field computation of `generate`, as a
`ZeroDivisionError` — not "fast, before any field computation". -/
theorem c8_counterexample_construction_succeeds :
    hmInit zeroNoiseFamily invalidCfg
      = .ok { noise2 := zeroNoiseFamily 42, base_freq := 1/200, octaves := 0,
              lacunarity := 11/5, gain := 1/2, warp_amp := 1/10,
              warp_freq := 1/50 } ∧
    generateHeightmap zeroNoiseFamily invalidCfg 1 1
      = .error "float division by zero" := by
  constructor
  · rfl
  · simp only [generateHeightmap, hmInit]
    exact generate_error_of_octaves_nonpos _ 1 1 (by norm_num [invalidCfg])
      one_pos one_pos

/-- Claim C8 (amended): the generator performs no eager validation — the
constructor succeeds for EVERY configuration, the invalid ones included
(first conjunct, hypothesis-free) — and a configuration with non-positive
`octaves` makes generation itself fail with a `ZeroDivisionError` at the
first pixel of the field computation: during generation, not before it. -/
theorem c8_no_eager_validation (os : ℤ → ℚ → ℚ → ℚ) (cfg : NoiseConfig)
    (w h : ℕ) :
    hmInit os cfg
      = .ok { noise2 := os cfg.seed, base_freq := cfg.base_freq,
              octaves := cfg.octaves, lacunarity := cfg.lacunarity,
              gain := cfg.gain, warp_amp := cfg.warp_amp,
              warp_freq := cfg.warp_freq } ∧
    (cfg.octaves ≤ 0 → 0 < w → 0 < h →
      generateHeightmap os cfg w h = .error "float division by zero") := by
  constructor
  · rfl
  · intro hoct hw hh
    simp only [generateHeightmap, hmInit]
    exact generate_error_of_octaves_nonpos _ w h hoct hw hh

/-- Closed instance of the amended C8 theorem, discharging the inner
hypotheses at `invalidCfg` (octaves = 0) and a 1×1 field. -/
theorem c8_no_eager_validation_witness :
    invalidCfg.octaves ≤ 0 ∧ (0 : ℕ) < 1 ∧
    hmInit zeroNoiseFamily invalidCfg
      = .ok { noise2 := zeroNoiseFamily invalidCfg.seed,
              base_freq := invalidCfg.base_freq,
              octaves := invalidCfg.octaves,
              lacunarity := invalidCfg.lacunarity,
              gain := invalidCfg.gain, warp_amp := invalidCfg.warp_amp,
              warp_freq := invalidCfg.warp_freq } ∧
    generateHeightmap zeroNoiseFamily invalidCfg 1 1
      = .error "float division by zero" :=
  ⟨by norm_num [invalidCfg], by norm_num,
   (c8_no_eager_validation zeroNoiseFamily invalidCfg 1 1).1,
   (c8_no_eager_validation zeroNoiseFamily invalidCfg 1 1).2
     (by norm_num [invalidCfg]) one_pos one_pos⟩

/-- Counterexample to round-to-nearest quantization: on a raw field `{0,1,2}`
(generator `truncGen`, 3×1 pixels) the middle normalized sample is `1/2`,
`0.5 * 255 = 127.5` is stored as `127` by the truncating `astype('uint8')`
cast, while round-to-nearest (the spec-modelled `specRoundByte`) gives
`128`. -/
theorem c6_counterexample_truncation_not_rounding :
    generate truncGen 3 1 = .ok [[0, 127, 255]] ∧
    quantByte (1/2) = 127 ∧ specRoundByte (1/2) = 128 := by
  have ht1 : Int.toNat 1 = 1 := rfl
  have ht2 : Int.toNat 127 = 127 := rfl
  have ht3 : Int.toNat 255 = 255 := rfl
  refine ⟨?_, ?_, ?_⟩
  · norm_num [generate, mapExcept, rawPixel, domainWarp, fbm2d, fbmIter,
      truncGen, quantByte, ht1, ht2, ht3, List.range_succ, List.flatten,
      List.foldl, min_def, max_def]
  · norm_num [quantByte, ht2]
  · norm_num [specRoundByte, round_eq, min_def, max_def]

/-- Claim C6 (amended): each normalized sample `(v - min)/(max - min)` lies
in `[0,1]` and is stored as the TRUNCATION (floor) of `sample * 255`,
which already lies in `[0,255]` with no clamping needed; the code's
`astype('uint8')` does not round to nearest. -/
theorem c6_quantization_truncates (v mn mx : ℚ) (h1 : mn ≤ v) (h2 : v ≤ mx)
    (h3 : mn < mx) :
    0 ≤ (v - mn) / (mx - mn) ∧ (v - mn) / (mx - mn) ≤ 1 ∧
    quantByte ((v - mn) / (mx - mn)) = (⌊(v - mn) / (mx - mn) * 255⌋).toNat ∧
    quantByte ((v - mn) / (mx - mn)) ≤ 255 := by
  have hd : (0 : ℚ) < mx - mn := by linarith
  have hq0 : 0 ≤ (v - mn) / (mx - mn) := div_nonneg (by linarith) hd.le
  have hq1 : (v - mn) / (mx - mn) ≤ 1 := (div_le_one hd).mpr (by linarith)
  refine ⟨hq0, hq1, rfl, ?_⟩
  have hm : (v - mn) / (mx - mn) * 255 ≤ 255 := by nlinarith
  have hf : (⌊(v - mn) / (mx - mn) * 255⌋ : ℤ) ≤ 255 := by
    calc (⌊(v - mn) / (mx - mn) * 255⌋ : ℤ) ≤ ⌊(255 : ℚ)⌋ :=
          Int.floor_le_floor hm
    _ = 255 := by norm_num
  exact Int.toNat_le.mpr hf

/-- Closed instance of the amended C6 theorem at `(v, mn, mx) = (1, 0, 2)`. -/
theorem c6_quantization_truncates_witness :
    (0 : ℚ) ≤ 1 ∧ (1 : ℚ) ≤ 2 ∧ (0 : ℚ) < 2 ∧
    (0 ≤ ((1 : ℚ) - 0) / (2 - 0) ∧ ((1 : ℚ) - 0) / (2 - 0) ≤ 1 ∧
     quantByte (((1 : ℚ) - 0) / (2 - 0))
       = (⌊((1 : ℚ) - 0) / (2 - 0) * 255⌋).toNat ∧
     quantByte (((1 : ℚ) - 0) / (2 - 0)) ≤ 255) :=
  ⟨by norm_num, by norm_num, by norm_num,
   c6_quantization_truncates 1 0 2 (by norm_num) (by norm_num) (by norm_num)⟩

end MapMosaic
